import Mathlib

/-!
Shallow embedding of the fmc-lms-backend controllers (certificates, users,
assessments, incidents, auth) and proofs about the row-level authorization
scoping model, the credential lifecycle, and the password recovery encryption
token format.

Conventions of the embedding:
- SQL rows are Lean structures; nullable columns are `Option` fields.
- SQL equality `col = $n` is `sqlEqStr` / `sqlEqInt`: a comparison against a
  NULL value is not TRUE, hence `false`.
- JavaScript coercions are modelled explicitly: `jsTruthyStr` is string
  truthiness, `jsStringOfOptStr` is `String(x)` (so `String(null) = "null"`),
  `jsNumOfOptInt` is `Number(x)` (so `Number(null) = 0`).
- Strings that only flow through hashing or encryption are kept as `String`;
  binary data (keys, ivs, tags, ciphertexts) and encoded tokens are lists of
  byte values (`List Nat`, each < 256) and character codes respectively.
- Database side effects are explicit state passing on `List` tables; the
  `BEGIN/COMMIT/ROLLBACK` transaction of the bulk operation is modelled by
  returning the original table whenever the code rolls back.
-/

namespace FMC

/-- JavaScript truthiness of a nullable string: `null` and the empty string
are falsy, every other string is truthy. -/
def jsTruthyStr : Option String → Bool
  | none => false
  | some s => !(s == "")

/-- JavaScript `String(x)` on a nullable string: `String(null) = "null"`. -/
def jsStringOfOptStr : Option String → String
  | none => "null"
  | some s => s

/-- JavaScript `Number(x)` on a nullable integer: `Number(null) = 0`. -/
def jsNumOfOptInt : Option Int → Int
  | none => 0
  | some n => n

/-- SQL equality `col = v` between nullable text values: comparison with NULL
is not TRUE. -/
def sqlEqStr : Option String → Option String → Bool
  | some a, some b => a == b
  | _, _ => false

/-- SQL equality `col = v` between nullable integer values. -/
def sqlEqInt : Option Int → Option Int → Bool
  | some a, some b => a == b
  | _, _ => false

/-- SQL `COALESCE(new, old)`. -/
def sqlCoalesce {α : Type} : Option α → Option α → Option α
  | some v, _ => some v
  | none, old => old

/-- ASCII lowercasing of one character (JS `toLowerCase` restricted to the
ASCII range used by status values). -/
def jsToLowerChar (c : Char) : Char :=
  if 65 ≤ c.toNat ∧ c.toNat ≤ 90 then Char.ofNat (c.toNat + 32) else c

/-- JS `String.prototype.toLowerCase` on the character sequence. -/
def jsToLower (s : String) : String := ⟨s.data.map jsToLowerChar⟩

/-- JS whitespace recognized by `trim` (ASCII subset). -/
def jsWhitespace (c : Char) : Bool :=
  c == ' ' || c == '\t' || c == '\n' || c == '\r'

/-- JS `String.prototype.trim`: strip whitespace from both ends. -/
def jsTrim (s : String) : String :=
  ⟨((s.data.dropWhile jsWhitespace).reverse.dropWhile jsWhitespace).reverse⟩

/-- The `normalizeStatus` helper: `s ? String(s).trim().toLowerCase() : null`.
A null or empty status normalizes to null. -/
def normalizeStatus : Option String → Option String
  | none => none
  | some s => if s == "" then none else some (jsToLower (jsTrim s))

/-- The `isOnboard` helper: the normalized status is exactly "onboard". -/
def isOnboard (s : Option String) : Bool :=
  normalizeStatus s == some "onboard"

/-- Authenticated caller identity as carried by `req.user` (token claims):
numeric role id, nullable company uuid, nullable ship id, user id. -/
structure Principal where
  role_id : Int
  company_id : Option String
  ship_id : Option Int
  user_id : Int
deriving Repr, DecidableEq

/-- A row of the `certificates` table (tenancy fields; domain payload fields
that only flow through COALESCE updates are represented by the named
sample fields). `user_id` and `company_id` are required at creation. -/
structure CertRow where
  certificate_id : Int
  user_id : Int
  company_id : String
  ship_id : Option Int
  full_name : Option String
  certificate_name : Option String
  status : Option String
deriving Repr, DecidableEq

/-- A row of the `users` table. Fields that only flow through COALESCE
updates (dates, passport data, ...) are represented by the sample fields
`rank`, `trip`, `embarkation_date`, `disembarkation_date`. -/
structure UserRow where
  user_id : Int
  seafarer_id : String
  full_name : String
  rank : Option String
  trip : Option String
  embarkation_date : Option String
  disembarkation_date : Option String
  status : Option String
  username : Option String
  password_hash : Option String
  password_enc : Option String
  ship_id : Option Int
  company_id : Option String
  role_id : Int
deriving Repr, DecidableEq

/-- A row of the `assessments` table (tenancy and status fields used by the
scope filter). -/
structure AssessRow where
  assessment_id : Int
  company_id : Option String
  ship_id : Option Int
  status : Option String
  created_by_user_id : Option Int
deriving Repr, DecidableEq

/-- Row predicate denoted by the WHERE fragment returned by `certScope` in
the certificates controller: role 1 TRUE; role 2 `company_id = $1`; role 3
`company_id = $1 AND ship_id = $2`; any other role `user_id = $1`. -/
def certScopePred (p : Principal) (r : CertRow) : Bool :=
  if p.role_id == 1 then true
  else if p.role_id == 2 then sqlEqStr (some r.company_id) p.company_id
  else if p.role_id == 3 then
    sqlEqStr (some r.company_id) p.company_id && sqlEqInt r.ship_id p.ship_id
  else r.user_id == p.user_id

/-- Row predicate denoted by the role-branched queries of `getAllUsers` in
the users controller: role 1 all rows; role 2 `company_id = $1`; role 3
`company_id = $1 AND ship_id = $2`; any other role `user_id = $1`. -/
def usersScopePred (p : Principal) (r : UserRow) : Bool :=
  if p.role_id == 1 then true
  else if p.role_id == 2 then sqlEqStr r.company_id p.company_id
  else if p.role_id == 3 then
    sqlEqStr r.company_id p.company_id && sqlEqInt r.ship_id p.ship_id
  else r.user_id == p.user_id

/-- Row predicate denoted by the WHERE fragment returned by `assessScope` in
the assessments controller; for crew the rows must be published, of the
company of the caller, and on no ship or the ship of the caller. -/
def assessScopePred (p : Principal) (r : AssessRow) : Bool :=
  if p.role_id == 1 then true
  else if p.role_id == 2 then sqlEqStr r.company_id p.company_id
  else if p.role_id == 3 then
    sqlEqStr r.company_id p.company_id && sqlEqInt r.ship_id p.ship_id
  else
    sqlEqStr r.status (some "published") && sqlEqStr r.company_id p.company_id &&
      (r.ship_id == none || sqlEqInt r.ship_id p.ship_id)

/-- Modelled from the spec (data model, section 3): a well-formed principal.
Admin always has a company; SubAdmin and Crew always have company and ship;
SuperAdmin tenancy fields are optional. -/
inductive SpecPrincipal where
  | superAdmin (company : Option String) (ship : Option Int) (userId : Int)
  | admin (company : String) (ship : Option Int) (userId : Int)
  | subAdmin (company : String) (ship : Int) (userId : Int)
  | crew (company : String) (ship : Int) (userId : Int)
deriving Repr, DecidableEq

/-- Interpretation of a well-formed principal as the raw token claims, with
the numeric role ids used by the code (1 superadmin, 2 admin, 3 subadmin,
4 crew). -/
def SpecPrincipal.toPrincipal : SpecPrincipal → Principal
  | .superAdmin c s u => ⟨1, c, s, u⟩
  | .admin c s u => ⟨2, some c, s, u⟩
  | .subAdmin c s u => ⟨3, some c, some s, u⟩
  | .crew c s u => ⟨4, some c, some s, u⟩

/-- Modelled from the spec: the list-scope table of section 4.2 for
certificate rows. -/
def specCertScope : SpecPrincipal → CertRow → Bool
  | .superAdmin _ _ _, _ => true
  | .admin c _ _, r => r.company_id == c
  | .subAdmin c s _, r => r.company_id == c && r.ship_id == some s
  | .crew _ _ u, r => r.user_id == u

/-- Modelled from the spec: the list-scope table of section 4.2 for user
rows. -/
def specUsersScope : SpecPrincipal → UserRow → Bool
  | .superAdmin _ _ _, _ => true
  | .admin c _ _, r => r.company_id == some c
  | .subAdmin c s _, r => r.company_id == some c && r.ship_id == some s
  | .crew _ _ u, r => r.user_id == u

/-- Modelled from the spec: the list-scope table of section 4.2 for
assessment rows; for crew only published rows of the company of the
caller whose ship is null or equals the ship of the caller. -/
def specAssessScope : SpecPrincipal → AssessRow → Bool
  | .superAdmin _ _ _, _ => true
  | .admin c _ _, r => r.company_id == some c
  | .subAdmin c s _, r => r.company_id == some c && r.ship_id == some s
  | .crew c s _, r =>
    r.status == some "published" && r.company_id == some c &&
      (r.ship_id == none || r.ship_id == some s)

theorem sqlEqStr_some_some (a b : String) : sqlEqStr (some a) (some b) = (a == b) := rfl

theorem sqlEqStr_some_right (a : Option String) (b : String) :
    sqlEqStr a (some b) = (a == some b) := by
  cases a <;> rfl

theorem sqlEqInt_some_right (a : Option Int) (b : Int) :
    sqlEqInt a (some b) = (a == some b) := by
  cases a <;> rfl

/-- Claim C1: for every principal and every row, the list-scope predicates
produced by the code (certificates `certScope`, users `getAllUsers`
branching, assessments `assessScope`) coincide with the role table of
section 4.2 of the spec: SuperAdmin everything; Admin the company rows;
SubAdmin the company-and-ship rows; Crew the self-owned rows for users and
certificates and the published own-company own-or-no-ship rows for
assessments. -/
theorem scope_predicates_match_spec_table (sp : SpecPrincipal)
    (rc : CertRow) (ru : UserRow) (ra : AssessRow) :
    certScopePred sp.toPrincipal rc = specCertScope sp rc ∧
    usersScopePred sp.toPrincipal ru = specUsersScope sp ru ∧
    assessScopePred sp.toPrincipal ra = specAssessScope sp ra := by
  cases sp <;>
    refine ⟨?_, ?_, ?_⟩ <;>
      simp [certScopePred, usersScopePred, assessScopePred,
        SpecPrincipal.toPrincipal, specCertScope, specUsersScope, specAssessScope,
        sqlEqStr_some_some, sqlEqStr_some_right, sqlEqInt_some_right]

/-! Incidents controller: the list query builder and the row-level
visibility check. Incident rows always carry a ship, a company and a
reporter (creation requires them), a visibility flag defaulted to false and
a soft-delete flag defaulted to false. -/

/-- A row of the `incident_reports` table. -/
structure IncidentRow where
  incident_id : String
  ship_id : Int
  company_id : String
  reported_by_user_id : Int
  visible_to_ship_only : Bool
  is_deleted : Bool
  title : String
deriving Repr, DecidableEq

/-- The `canSeeIncident` check of the incidents controller: superadmin all;
admin same company; subadmin same company and ship; otherwise (crew) self
reported, or same ship when ship-restricted, or same company when not
ship-restricted. String and Number coercions of the JS code are explicit. -/
def canSeeIncident (p : Principal) (r : IncidentRow) : Bool :=
  if p.role_id == 1 then true
  else if p.role_id == 2 then r.company_id == jsStringOfOptStr p.company_id
  else if p.role_id == 3 then
    r.company_id == jsStringOfOptStr p.company_id && r.ship_id == jsNumOfOptInt p.ship_id
  else
    if r.reported_by_user_id == p.user_id then true
    else if r.ship_id == jsNumOfOptInt p.ship_id && r.visible_to_ship_only then true
    else if r.company_id == jsStringOfOptStr p.company_id && !r.visible_to_ship_only then true
    else false

/-- Row predicate denoted by the WHERE clause of `buildIncidentListQuery`:
every branch excludes soft-deleted rows; the crew branch is the three-way
OR over self-authorship, ship-restricted visibility and company-wide
visibility. -/
def incidentListPred (p : Principal) (r : IncidentRow) : Bool :=
  if p.role_id == 1 then !r.is_deleted
  else if p.role_id == 2 then !r.is_deleted && sqlEqStr (some r.company_id) p.company_id
  else if p.role_id == 3 then
    !r.is_deleted && sqlEqStr (some r.company_id) p.company_id &&
      sqlEqInt (some r.ship_id) p.ship_id
  else
    !r.is_deleted &&
      (r.reported_by_user_id == p.user_id ||
        (sqlEqInt (some r.ship_id) p.ship_id && r.visible_to_ship_only) ||
        (sqlEqStr (some r.company_id) p.company_id && !r.visible_to_ship_only))

/-- Claim C7: for a crew principal (company c, ship s, user u) and a
non-deleted incident row, visibility (both the get-by-id check
`canSeeIncident` and the list query predicate) holds exactly when the row
was reported by u, or is on ship s with the ship-only flag set, or is in
company c with the ship-only flag not set; in particular a ship-only row on
another ship not reported by u is invisible even in the same company. -/
theorem crew_incident_visibility (c : String) (s u : Int) (r : IncidentRow)
    (hdel : r.is_deleted = false) :
    canSeeIncident ⟨4, some c, some s, u⟩ r =
      (r.reported_by_user_id == u || (r.ship_id == s && r.visible_to_ship_only) ||
        (r.company_id == c && !r.visible_to_ship_only)) ∧
    incidentListPred ⟨4, some c, some s, u⟩ r = canSeeIncident ⟨4, some c, some s, u⟩ r ∧
    (r.visible_to_ship_only = true → r.reported_by_user_id ≠ u → r.ship_id ≠ s →
      canSeeIncident ⟨4, some c, some s, u⟩ r = false) := by
  refine ⟨?_, ?_, ?_⟩
  · simp only [canSeeIncident, jsStringOfOptStr, jsNumOfOptInt]
    norm_num
    cases hrep : r.reported_by_user_id == u <;>
      cases hship : r.ship_id == s <;>
        cases hcomp : r.company_id == c <;>
          cases hvis : r.visible_to_ship_only <;> simp_all
  · simp only [canSeeIncident, incidentListPred, jsStringOfOptStr, jsNumOfOptInt,
      sqlEqStr_some_some, sqlEqInt_some_right, hdel]
    norm_num
    cases hrep : r.reported_by_user_id == u <;>
      cases hship : r.ship_id == s <;>
        cases hcomp : r.company_id == c <;>
          cases hvis : r.visible_to_ship_only <;> simp_all
  · intro hvis hrep hship
    simp only [canSeeIncident, jsStringOfOptStr, jsNumOfOptInt]
    norm_num
    simp [hvis, hrep, hship, beq_iff_eq]

/-- Witness for C7 at a concrete input: a ship-only incident of company A on
ship 7 reported by user 9 is invisible to a crew member of company A on
ship 5 with user id 3. -/
theorem crew_incident_visibility_witness :
    canSeeIncident ⟨4, some "A", some 5, 3⟩ ⟨"i1", 7, "A", 9, true, false, "t"⟩ = false := by
  have h := crew_incident_visibility "A" 5 3 ⟨"i1", 7, "A", 9, true, false, "t"⟩ rfl
  exact h.2.2 rfl (by decide) (by decide)

/-! Certificates controller CRUD and users controller get/delete, used to
compare how uniformly the scope predicate is applied. -/

/-- JavaScript truthiness of a nullable number: `null` and `0` are falsy. -/
def jsTruthyInt : Option Int → Bool
  | none => false
  | some n => !(n == 0)

/-- The `canWrite` role gate of the certificates controller:
`[1, 2, 3].includes(roleId)`. -/
def canWrite (roleId : Int) : Bool :=
  roleId == 1 || roleId == 2 || roleId == 3

/-- Allowed certificate status values (`CERT_STATUS`). -/
def CERT_STATUS : List String := ["valid", "expired", "expiring_soon"]

/-- GET /certificates/:id — `SELECT ... WHERE certificate_id = $1 AND
(scope)`, 404 when no row matches, otherwise the first matching row. -/
def getCertificateById (p : Principal) (id : Int) (db : List CertRow) : Option CertRow :=
  match db.filter (fun r => r.certificate_id == id && certScopePred p r) with
  | [] => none
  | r :: _ => some r

/-- Update payload of PUT /certificates/:id (absent fields are `none`;
fields that only flow through COALESCE are represented by the sample
fields). -/
structure CertUpdateBody where
  user_id : Option Int := none
  company_id : Option String := none
  ship_id : Option Int := none
  full_name : Option String := none
  certificate_name : Option String := none
  status : Option String := none
deriving Repr, DecidableEq

/-- The COALESCE row update of PUT /certificates/:id. -/
def applyCertUpdate (b : CertUpdateBody) (r : CertRow) : CertRow :=
  { r with
    user_id := (sqlCoalesce b.user_id (some r.user_id)).getD r.user_id
    company_id := (sqlCoalesce b.company_id (some r.company_id)).getD r.company_id
    ship_id := sqlCoalesce b.ship_id r.ship_id
    full_name := sqlCoalesce b.full_name r.full_name
    certificate_name := sqlCoalesce b.certificate_name r.certificate_name
    status := sqlCoalesce b.status r.status }

/-- Outcomes of the certificate write paths. -/
inductive CertWriteResult where
  | forbidden
  | forbiddenCompanyScope
  | forbiddenShipScope
  | badRequestStatus
  | notFound
  | ok
deriving Repr, DecidableEq

/-- PUT /certificates/:id: role gate, in-scope existence check, company and
ship cross-boundary gates on the payload, status validation, then the
COALESCE update keyed on certificate_id only. -/
def updateCertificate (p : Principal) (id : Int) (b : CertUpdateBody)
    (db : List CertRow) : CertWriteResult × List CertRow :=
  if !canWrite p.role_id then (.forbidden, db)
  else if (db.filter (fun r => r.certificate_id == id && certScopePred p r)).isEmpty then
    (.notFound, db)
  else if p.role_id == 2 && jsTruthyStr b.company_id &&
      !(jsStringOfOptStr b.company_id == jsStringOfOptStr p.company_id) then
    (.forbiddenCompanyScope, db)
  else if p.role_id == 3 &&
      ((jsTruthyStr b.company_id &&
          !(jsStringOfOptStr b.company_id == jsStringOfOptStr p.company_id)) ||
        (jsTruthyInt b.ship_id && !(jsNumOfOptInt b.ship_id == jsNumOfOptInt p.ship_id))) then
    (.forbiddenShipScope, db)
  else if jsTruthyStr b.status && !(CERT_STATUS.contains (jsStringOfOptStr b.status)) then
    (.badRequestStatus, db)
  else (.ok, db.map (fun r => if r.certificate_id == id then applyCertUpdate b r else r))

/-- DELETE /certificates/:id: role gate, then `DELETE ... WHERE
certificate_id = $1 AND (scope)`, 404 when nothing was removed. -/
def deleteCertificate (p : Principal) (id : Int) (db : List CertRow) :
    CertWriteResult × List CertRow :=
  if !canWrite p.role_id then (.forbidden, db)
  else
    let remaining := db.filter (fun r => !(r.certificate_id == id && certScopePred p r))
    if remaining.length == db.length then (.notFound, db) else (.ok, remaining)

/-- GET /users/:id of the users controller: `SELECT * FROM users WHERE
user_id = $1` — the row is located by id only, with no scope filter. -/
def getUserByIdFetch (id : Int) (db : List UserRow) : Option UserRow :=
  db.find? (fun r => r.user_id == id)

/-- DELETE /users/:id of the users controller: `DELETE FROM users WHERE
user_id = $1` — keyed by id only, with no scope filter; the Bool is
whether a row was deleted (false answers 404). -/
def deleteUser (id : Int) (db : List UserRow) : Bool × List UserRow :=
  let remaining := db.filter (fun r => !(r.user_id == id))
  if remaining.length == db.length then (false, db) else (true, remaining)

/-- GET /users of the users controller: the role-branched list queries. -/
def getAllUsersRows (p : Principal) (db : List UserRow) : List UserRow :=
  if p.role_id == 1 then db
  else if p.role_id == 2 then db.filter (fun r => sqlEqStr r.company_id p.company_id)
  else if p.role_id == 3 then
    db.filter (fun r => sqlEqStr r.company_id p.company_id && sqlEqInt r.ship_id p.ship_id)
  else db.filter (fun r => r.user_id == p.user_id)

/-- Counterexample to claim C5: the scope predicate is not applied
uniformly. A crew principal (user 1 of company A, ship 1) is outside scope
for the user row with id 2, yet GET /users/:id reads and returns that row
and DELETE /users/:id deletes it. -/
theorem users_ops_ignore_scope_cex :
    usersScopePred ⟨4, some "A", some 1, 1⟩
        ⟨2, "SF2", "Bob", none, none, none, none, some "Onboard", some "u2", some "h2",
          some "e2", some 1, some "A", 4⟩ = false ∧
    getUserByIdFetch 2
        [⟨2, "SF2", "Bob", none, none, none, none, some "Onboard", some "u2", some "h2",
          some "e2", some 1, some "A", 4⟩] =
      some
        ⟨2, "SF2", "Bob", none, none, none, none, some "Onboard", some "u2", some "h2",
          some "e2", some 1, some "A", 4⟩ ∧
    deleteUser 2
        [⟨2, "SF2", "Bob", none, none, none, none, some "Onboard", some "u2", some "h2",
          some "e2", some 1, some "A", 4⟩] = (true, []) :=
  ⟨rfl, rfl, rfl⟩

/-- Claim C5 as amended: the certificate endpoints apply the scope predicate
uniformly — get-by-id returns only in-scope rows, delete removes only
in-scope rows, a successful update leaves every out-of-scope row in place
(given unique certificate ids) — and the users list returns only in-scope
rows; but the users get-by-id, update and delete paths are keyed on user_id
alone and do read, return, modify or delete rows outside the scope
predicate of the caller. -/
theorem scope_uniformity_amended (p : Principal) (id : Int) (cdb : List CertRow)
    (udb : List UserRow) (b : CertUpdateBody)
    (hids : (cdb.map CertRow.certificate_id).Nodup) :
    (∀ r, getCertificateById p id cdb = some r →
      r ∈ cdb ∧ r.certificate_id = id ∧ certScopePred p r = true) ∧
    (∀ r, r ∈ cdb → certScopePred p r = false → r ∈ (deleteCertificate p id cdb).2) ∧
    ((updateCertificate p id b cdb).1 = .ok →
      ∀ r, r ∈ cdb → certScopePred p r = false → r ∈ (updateCertificate p id b cdb).2) ∧
    (∀ r, r ∈ getAllUsersRows p udb → usersScopePred p r = true) := by
  refine ⟨?_, ?_, ?_, ?_⟩
  · intro r hr
    unfold getCertificateById at hr
    rcases hflt : cdb.filter (fun r => r.certificate_id == id && certScopePred p r) with
      _ | ⟨r0, rest⟩ <;> rw [hflt] at hr
    · exact absurd hr (by simp)
    · have hmem : r0 ∈ cdb.filter (fun r => r.certificate_id == id && certScopePred p r) := by
        rw [hflt]; exact List.mem_cons_self r0 rest
      have hr0 : r0 = r := by simpa using hr
      subst hr0
      have := List.mem_filter.1 hmem
      refine ⟨this.1, ?_, ?_⟩
      · have h2 := this.2
        simp only [Bool.and_eq_true, beq_iff_eq] at h2
        exact h2.1
      · have h2 := this.2
        simp only [Bool.and_eq_true] at h2
        exact h2.2
  · intro r hr hscope
    unfold deleteCertificate
    by_cases hw : canWrite p.role_id
    · simp only [hw, Bool.not_true, Bool.false_eq_true, if_false]
      by_cases hlen :
          ((cdb.filter (fun r => !(r.certificate_id == id && certScopePred p r))).length ==
            cdb.length) = true
      · simp only [hlen, if_true]; exact hr
      · simp only [Bool.not_eq_true] at hlen
        simp only [hlen, if_false]
        exact List.mem_filter.2 ⟨hr, by simp [hscope]⟩
    · simp [hw]; exact hr
  · intro hok r hr hscope
    unfold updateCertificate at hok ⊢
    by_cases hw : canWrite p.role_id
    · by_cases hfound :
          (cdb.filter (fun r => r.certificate_id == id && certScopePred p r)).isEmpty = true
      · simp [hw, hfound] at hok
      · by_cases hid : r.certificate_id = id
        · exfalso
          rcases hne : cdb.filter (fun r => r.certificate_id == id && certScopePred p r) with
            _ | ⟨r0, rest⟩
          · rw [hne] at hfound; simp at hfound
          · have hmem : r0 ∈ cdb.filter (fun r => r.certificate_id == id && certScopePred p r) := by
              rw [hne]; exact List.mem_cons_self r0 rest
            have h0 := List.mem_filter.1 hmem
            have h2 := h0.2
            simp only [Bool.and_eq_true, beq_iff_eq] at h2
            have heq : r0 = r :=
              List.inj_on_of_nodup_map hids h0.1 hr (by rw [h2.1, hid])
            rw [heq] at h2
            rw [h2.2] at hscope
            exact absurd hscope (by simp)
        · simp only [hw, Bool.not_true, Bool.false_eq_true, if_false, hfound, if_false] at hok ⊢
          by_cases h2g : (p.role_id == 2 && jsTruthyStr b.company_id &&
              !(jsStringOfOptStr b.company_id == jsStringOfOptStr p.company_id)) = true
          · rw [if_pos h2g] at hok; exact absurd hok (by simp)
          · rw [if_neg (by simpa using h2g)] at hok ⊢
            by_cases h3g : (p.role_id == 3 &&
                ((jsTruthyStr b.company_id &&
                    !(jsStringOfOptStr b.company_id == jsStringOfOptStr p.company_id)) ||
                  (jsTruthyInt b.ship_id &&
                    !(jsNumOfOptInt b.ship_id == jsNumOfOptInt p.ship_id)))) = true
            · rw [if_pos h3g] at hok; exact absurd hok (by simp)
            · rw [if_neg (by simpa using h3g)] at hok ⊢
              by_cases hst : (jsTruthyStr b.status &&
                  !(CERT_STATUS.contains (jsStringOfOptStr b.status))) = true
              · rw [if_pos hst] at hok; exact absurd hok (by simp)
              · rw [if_neg (by simpa using hst)]
                have himg :=
                  List.mem_map_of_mem
                    (fun r => if r.certificate_id == id then applyCertUpdate b r else r) hr
                simpa [hid] using himg
    · simp [hw] at hok
  · intro r hr
    unfold getAllUsersRows at hr
    unfold usersScopePred
    by_cases h1 : (p.role_id == 1) = true
    · simp [h1]
    · rw [if_neg (by simpa using h1)] at hr ⊢
      by_cases h2 : (p.role_id == 2) = true
      · rw [if_pos h2] at hr ⊢; exact (List.mem_filter.1 hr).2
      · rw [if_neg (by simpa using h2)] at hr ⊢
        by_cases h3 : (p.role_id == 3) = true
        · rw [if_pos h3] at hr ⊢; exact (List.mem_filter.1 hr).2
        · rw [if_neg (by simpa using h3)] at hr ⊢
          exact (List.mem_filter.1 hr).2

/-- Witness for the amended C5 at a concrete input: a subadmin of company A
ship 1 queries certificate 5 owned by company B; the certificate row is out
of scope, get-by-id answers 404, delete removes nothing, and the list of
users of another company is empty. -/
theorem scope_uniformity_amended_witness :
    getCertificateById ⟨3, some "A", some 1, 9⟩ 5
        [⟨5, 7, "B", some 2, none, none, none⟩] = none ∧
    (⟨5, 7, "B", some 2, none, none, none⟩ : CertRow) ∈
      (deleteCertificate ⟨3, some "A", some 1, 9⟩ 5
        [⟨5, 7, "B", some 2, none, none, none⟩]).2 := by
  constructor
  · rfl
  · exact ((scope_uniformity_amended ⟨3, some "A", some 1, 9⟩ 5
      [⟨5, 7, "B", some 2, none, none, none⟩] [] {} (by decide)).2.1)
      ⟨5, 7, "B", some 2, none, none, none⟩ (List.mem_cons_self _ _) (by decide)

/-! Credential lifecycle: PUT /users/:id and PATCH /users/bulk-status of
the users controller. Randomness of the credential engine (the generated
username and password) and the hash and recovery-encryption functions are
parameters of the embedding. -/

/-- Update payload of PUT /users/:id. The status field distinguishes a
field absent from the body (outer `none`, JS `undefined`) from a present
value, because the code tests `body.status !== undefined`; a present JSON
null is the inner `none`. For the remaining fields presence of a null value
and absence coincide (both become a NULL COALESCE parameter). -/
structure UserUpdateBody where
  seafarer_id : Option String := none
  full_name : Option String := none
  rank : Option String := none
  trip : Option String := none
  embarkation_date : Option String := none
  disembarkation_date : Option String := none
  status : Option (Option String) := none
  ship_id : Option Int := none
  company_id : Option String := none
deriving Repr, DecidableEq

/-- The next status considered by PUT /users/:id:
`body.status !== undefined ? body.status : current.status`. -/
def nextStatusOf (current : UserRow) (body : UserUpdateBody) : Option String :=
  match body.status with
  | some v => v
  | none => current.status

/-- Credential-bundle presence test `!!(current.username && current.password_hash)`. -/
def hasCredsOf (u : UserRow) : Bool :=
  jsTruthyStr u.username && jsTruthyStr u.password_hash

/-- Core of PUT /users/:id on the fetched row: generate credentials only
when the next status is onboard and the row has none, then apply the
COALESCE update; the second component is the credentials field of the
response. `gen` is the (username, password) pair the credential engine
would produce. -/
def updateUserCore (hashFn encFn : String → String) (gen : String × String)
    (current : UserRow) (body : UserUpdateBody) : UserRow × Option (String × String) :=
  let nextOnboard := isOnboard (nextStatusOf current body)
  let hasCreds := hasCredsOf current
  let newUsername : Option String := if nextOnboard && !hasCreds then some gen.1 else none
  let newPassword : Option String := if nextOnboard && !hasCreds then some gen.2 else none
  let newPasswordHash : Option String := newPassword.map hashFn
  let newPasswordEnc : Option String := newPassword.map encFn
  let updated : UserRow :=
    { current with
      seafarer_id :=
        (sqlCoalesce body.seafarer_id (some current.seafarer_id)).getD current.seafarer_id
      full_name := (sqlCoalesce body.full_name (some current.full_name)).getD current.full_name
      rank := sqlCoalesce body.rank current.rank
      trip := sqlCoalesce body.trip current.trip
      embarkation_date := sqlCoalesce body.embarkation_date current.embarkation_date
      disembarkation_date := sqlCoalesce body.disembarkation_date current.disembarkation_date
      status := sqlCoalesce body.status.join current.status
      username := sqlCoalesce newUsername current.username
      password_hash := sqlCoalesce newPasswordHash current.password_hash
      password_enc := sqlCoalesce newPasswordEnc current.password_enc
      ship_id := sqlCoalesce body.ship_id current.ship_id
      company_id := sqlCoalesce body.company_id current.company_id }
  let creds : Option (String × String) :=
    match newUsername, newPassword with
    | some un, some pw => if un == "" || pw == "" then none else some (un, pw)
    | _, _ => none
  (updated, creds)

/-- Per-row update of PATCH /users/bulk-status: generate only when moving
to onboard with no credentials; clear the whole bundle when offboarding
with the removal flag; the second component is the generated-credentials
entry appended to the response. -/
def bulkRowUpdate (hashFn encFn : String → String) (gen : String × String)
    (status : String) (isTargetOnboard isTargetOffboard removeCredentials : Bool)
    (u : UserRow) : UserRow × Option (String × String) :=
  let hasCreds := hasCredsOf u
  let genNow := isTargetOnboard && !hasCreds
  let username : Option String := if genNow then some gen.1 else none
  let plainPassword : Option String := if genNow then some gen.2 else none
  let passwordHash : Option String := plainPassword.map hashFn
  let passwordEnc : Option String := plainPassword.map encFn
  let clearCreds := isTargetOffboard && removeCredentials
  let updated : UserRow :=
    { u with
      status := some status
      username := if clearCreds then none else sqlCoalesce username u.username
      password_hash := if clearCreds then none else sqlCoalesce passwordHash u.password_hash
      password_enc := if clearCreds then none else sqlCoalesce passwordEnc u.password_enc }
  let creds : Option (String × String) :=
    if jsTruthyStr plainPassword then
      match username, plainPassword with
      | some un, some pw => some (un, pw)
      | _, _ => none
    else none
  (updated, creds)

/-- Request body of PATCH /users/bulk-status. -/
structure BulkRequest where
  user_ids : List Int
  status : Option String
  remove_credentials : Bool
deriving Repr, DecidableEq

/-- Outcomes of PATCH /users/bulk-status. -/
inductive BulkResult where
  | badRequest
  | notFound
  | forbidden (violations : List Int)
  | ok (updated : Nat) (generated : List (Int × String × String))
deriving Repr, DecidableEq

/-- The trimmed status string:
`statusRaw != null ? String(statusRaw).trim() : ""`. -/
def bulkStatusString (st : Option String) : String :=
  match st with
  | none => ""
  | some s => jsTrim s

/-- Sanitized positive integer ids of the bulk request. -/
def bulkIds (req : BulkRequest) : List Int :=
  req.user_ids.filter (fun n => decide (0 < n))

/-- The rows fetched (and row-locked) by the bulk operation:
`WHERE user_id = ANY($1::int[]) FOR UPDATE`. -/
def bulkFetched (req : BulkRequest) (db : List UserRow) : List UserRow :=
  db.filter (fun r => (bulkIds req).contains r.user_id)

/-- The `myCompany` value of the bulk scope check:
`req.user?.company_id ? String(req.user.company_id) : null`. -/
def bulkMyCompany (p : Principal) : Option String :=
  if jsTruthyStr p.company_id then some (jsStringOfOptStr p.company_id) else none

/-- Violations pushed by the scope-check loop for one fetched user: role 2
pushes on company mismatch; role 3 pushes on company mismatch and again on
ship mismatch. -/
def bulkViolationsFor (p : Principal) (myCompany : Option String) (myShip : Option Int)
    (u : UserRow) : List Int :=
  let companyViol : Bool :=
    match myCompany with
    | some c => !(jsStringOfOptStr u.company_id == c)
    | none => false
  let shipViol : Bool :=
    match myShip with
    | some s => !(jsNumOfOptInt u.ship_id == s)
    | none => false
  (if p.role_id == 2 && companyViol then [u.user_id] else []) ++
    (if p.role_id == 3 && companyViol then [u.user_id] else []) ++
    (if p.role_id == 3 && shipViol then [u.user_id] else [])

/-- All violations collected over the fetched rows. -/
def bulkViolations (p : Principal) (req : BulkRequest) (db : List UserRow) : List Int :=
  (bulkFetched req db).flatMap (bulkViolationsFor p (bulkMyCompany p) p.ship_id)

/-- PATCH /users/bulk-status: validation, fetch with row locks inside a
transaction, all-or-nothing scope check (any violation rolls the
transaction back before any UPDATE), then the per-row updates and COMMIT.
The rolled-back branches return the unchanged table. -/
def bulkUpdateUserStatus (hashFn encFn : String → String) (gen : Int → String × String)
    (p : Principal) (req : BulkRequest) (db : List UserRow) :
    BulkResult × List UserRow :=
  if req.user_ids.isEmpty then (.badRequest, db)
  else
    let status := bulkStatusString req.status
    let isTargetOnboard := isOnboard (some status)
    let isTargetOffboard := normalizeStatus (some status) == some "offboard"
    if status == "" || (!isTargetOnboard && !isTargetOffboard) then (.badRequest, db)
    else if (bulkIds req).isEmpty then (.badRequest, db)
    else if (bulkFetched req db).isEmpty then (.notFound, db)
    else if !(bulkViolations p req db).isEmpty then (.forbidden (bulkViolations p req db), db)
    else
      let step := fun (acc : List UserRow × Nat × List (Int × String × String)) (u : UserRow) =>
        let res := bulkRowUpdate hashFn encFn (gen u.user_id) status isTargetOnboard
          isTargetOffboard req.remove_credentials u
        (acc.1.map (fun r => if r.user_id == u.user_id then res.1 else r),
          acc.2.1 + 1,
          acc.2.2 ++ (match res.2 with | some (un, pw) => [(u.user_id, un, pw)] | none => []))
      let fin := (bulkFetched req db).foldl step (db, 0, [])
      (.ok fin.2.1 fin.2.2, fin.1)

theorem not_offboard_of_onboard (s : Option String) (h : isOnboard s = true) :
    (normalizeStatus s == some "offboard") = false := by
  unfold isOnboard at h
  have hn : normalizeStatus s = some "onboard" := by simpa using h
  rw [hn]; decide

/-- Claim C2: credential generation is one-shot. For a row that already has
a credential bundle, a PUT /users/:id whose next status is onboard and a
bulk row transition to Onboard leave the stored username, hash and
encrypted password unchanged and answer a null credentials field; and on
both paths a generated bundle in the response implies the target status
was onboard and the row had no credentials. -/
theorem credential_generation_one_shot (hashFn encFn : String → String)
    (gen : String × String) (st : String) (rc : Bool) (current u : UserRow)
    (body : UserUpdateBody)
    (hcur : hasCredsOf current = true)
    (hnext : isOnboard (nextStatusOf current body) = true)
    (hu : hasCredsOf u = true)
    (hst : isOnboard (some st) = true) :
    ((updateUserCore hashFn encFn gen current body).1.username = current.username ∧
      (updateUserCore hashFn encFn gen current body).1.password_hash = current.password_hash ∧
      (updateUserCore hashFn encFn gen current body).1.password_enc = current.password_enc ∧
      (updateUserCore hashFn encFn gen current body).2 = none) ∧
    ((bulkRowUpdate hashFn encFn gen st (isOnboard (some st))
        (normalizeStatus (some st) == some "offboard") rc u).1.username = u.username ∧
      (bulkRowUpdate hashFn encFn gen st (isOnboard (some st))
        (normalizeStatus (some st) == some "offboard") rc u).1.password_hash = u.password_hash ∧
      (bulkRowUpdate hashFn encFn gen st (isOnboard (some st))
        (normalizeStatus (some st) == some "offboard") rc u).1.password_enc = u.password_enc ∧
      (bulkRowUpdate hashFn encFn gen st (isOnboard (some st))
        (normalizeStatus (some st) == some "offboard") rc u).2 = none) ∧
    (∀ cur2 body2, (updateUserCore hashFn encFn gen cur2 body2).2 ≠ none →
      isOnboard (nextStatusOf cur2 body2) = true ∧ hasCredsOf cur2 = false) ∧
    (∀ u2 onb offb rc2, (bulkRowUpdate hashFn encFn gen st onb offb rc2 u2).2 ≠ none →
      onb = true ∧ hasCredsOf u2 = false) := by
  refine ⟨?_, ?_, ?_, ?_⟩
  · simp [updateUserCore, hcur, hnext, sqlCoalesce]
  · simp [bulkRowUpdate, hu, not_offboard_of_onboard (some st) hst, sqlCoalesce, jsTruthyStr]
  · intro cur2 body2 hne
    by_cases hgen : (isOnboard (nextStatusOf cur2 body2) && !hasCredsOf cur2) = true
    · rw [Bool.and_eq_true] at hgen
      exact ⟨hgen.1, by simpa using hgen.2⟩
    · exfalso
      apply hne
      simp only [Bool.not_eq_true] at hgen
      simp [updateUserCore, hgen]
  · intro u2 onb offb rc2 hne
    by_cases hgen : (onb && !hasCredsOf u2) = true
    · rw [Bool.and_eq_true] at hgen
      exact ⟨hgen.1, by simpa using hgen.2⟩
    · exfalso
      apply hne
      simp only [Bool.not_eq_true] at hgen
      simp [bulkRowUpdate, hgen, jsTruthyStr]

/-- Witness for C2 at a concrete input: a row already holding credentials,
updated again to Onboard, keeps its bundle and gets no new credentials. -/
theorem credential_generation_one_shot_witness :
    (updateUserCore (fun s => s) (fun s => s) ("gu", "gp")
        ⟨1, "SF1", "Ann", none, none, none, none, some "Offboard", some "user1", some "hash1",
          some "enc1", some 1, some "A", 4⟩
        { status := some (some "Onboard") }).1.password_hash = some "hash1" ∧
    (updateUserCore (fun s => s) (fun s => s) ("gu", "gp")
        ⟨1, "SF1", "Ann", none, none, none, none, some "Offboard", some "user1", some "hash1",
          some "enc1", some 1, some "A", 4⟩
        { status := some (some "Onboard") }).2 = none := by
  have h := credential_generation_one_shot (fun s => s) (fun s => s) ("gu", "gp") "Onboard"
    false
    ⟨1, "SF1", "Ann", none, none, none, none, some "Offboard", some "user1", some "hash1",
      some "enc1", some 1, some "A", 4⟩
    ⟨1, "SF1", "Ann", none, none, none, none, some "Offboard", some "user1", some "hash1",
      some "enc1", some 1, some "A", 4⟩
    { status := some (some "Onboard") } (by decide) (by decide) (by decide) (by decide)
  refine ⟨?_, h.1.2.2.2⟩
  rw [h.1.2.1]

/-- Claim C4: for a row with an existing credential bundle, a transition to
a non-onboard status preserves username, hash and encrypted password by
default — PUT /users/:id has no removal flag at all, and a bulk offboard
without the flag leaves all three unchanged — while a bulk offboard with
the remove_credentials flag clears all three together; a bulk transition
whose target is onboard never alters an existing bundle whatever the flag. -/
theorem offboard_preserves_credentials_unless_removed (hashFn encFn : String → String)
    (gen : String × String) (st : String) (current u : UserRow) (body : UserUpdateBody)
    (hcur : hasCredsOf current = true)
    (hnext : isOnboard (nextStatusOf current body) = false)
    (hu : hasCredsOf u = true) :
    ((updateUserCore hashFn encFn gen current body).1.username = current.username ∧
      (updateUserCore hashFn encFn gen current body).1.password_hash = current.password_hash ∧
      (updateUserCore hashFn encFn gen current body).1.password_enc = current.password_enc) ∧
    (isOnboard (some st) = false →
      (bulkRowUpdate hashFn encFn gen st (isOnboard (some st))
          (normalizeStatus (some st) == some "offboard") false u).1.username = u.username ∧
        (bulkRowUpdate hashFn encFn gen st (isOnboard (some st))
          (normalizeStatus (some st) == some "offboard") false u).1.password_hash =
            u.password_hash ∧
        (bulkRowUpdate hashFn encFn gen st (isOnboard (some st))
          (normalizeStatus (some st) == some "offboard") false u).1.password_enc =
            u.password_enc) ∧
    (normalizeStatus (some st) = some "offboard" →
      (bulkRowUpdate hashFn encFn gen st (isOnboard (some st))
          (normalizeStatus (some st) == some "offboard") true u).1.username = none ∧
        (bulkRowUpdate hashFn encFn gen st (isOnboard (some st))
          (normalizeStatus (some st) == some "offboard") true u).1.password_hash = none ∧
        (bulkRowUpdate hashFn encFn gen st (isOnboard (some st))
          (normalizeStatus (some st) == some "offboard") true u).1.password_enc = none) ∧
    (∀ rc2, isOnboard (some st) = true →
      (bulkRowUpdate hashFn encFn gen st (isOnboard (some st))
          (normalizeStatus (some st) == some "offboard") rc2 u).1.username = u.username ∧
        (bulkRowUpdate hashFn encFn gen st (isOnboard (some st))
          (normalizeStatus (some st) == some "offboard") rc2 u).1.password_hash =
            u.password_hash ∧
        (bulkRowUpdate hashFn encFn gen st (isOnboard (some st))
          (normalizeStatus (some st) == some "offboard") rc2 u).1.password_enc =
            u.password_enc) := by
  refine ⟨?_, ?_, ?_, ?_⟩
  · simp [updateUserCore, hcur, hnext, sqlCoalesce]
  · intro hoff
    simp [bulkRowUpdate, hu, hoff, sqlCoalesce]
  · intro hoffb
    have : (normalizeStatus (some st) == some "offboard") = true := by simp [hoffb]
    have honb : isOnboard (some st) = false := by
      unfold isOnboard
      rw [hoffb]; decide
    simp [bulkRowUpdate, this, honb, sqlCoalesce]
  · intro rc2 honb
    simp [bulkRowUpdate, hu, honb, not_offboard_of_onboard (some st) honb, sqlCoalesce]

/-- Witness for C4 at a concrete input: offboarding without the flag keeps
the bundle; offboarding with the flag clears the hash. -/
theorem offboard_preserves_credentials_unless_removed_witness :
    (bulkRowUpdate (fun s => s) (fun s => s) ("gu", "gp") "Offboard" (isOnboard (some "Offboard"))
        (normalizeStatus (some "Offboard") == some "offboard") false
        ⟨1, "SF1", "Ann", none, none, none, none, some "Onboard", some "user1", some "hash1",
          some "enc1", some 1, some "A", 4⟩).1.password_hash = some "hash1" ∧
    (bulkRowUpdate (fun s => s) (fun s => s) ("gu", "gp") "Offboard" (isOnboard (some "Offboard"))
        (normalizeStatus (some "Offboard") == some "offboard") true
        ⟨1, "SF1", "Ann", none, none, none, none, some "Onboard", some "user1", some "hash1",
          some "enc1", some 1, some "A", 4⟩).1.password_hash = none := by
  have h := offboard_preserves_credentials_unless_removed (fun s => s) (fun s => s) ("gu", "gp")
    "Offboard"
    ⟨1, "SF1", "Ann", none, none, none, none, some "Onboard", some "user1", some "hash1",
      some "enc1", some 1, some "A", 4⟩
    ⟨1, "SF1", "Ann", none, none, none, none, some "Onboard", some "user1", some "hash1",
      some "enc1", some 1, some "A", 4⟩
    { status := some (some "Offboard") } (by decide) (by decide) (by decide)
  exact ⟨(h.2.1 (by decide)).2.1, (h.2.2.1 (by decide)).2.1⟩

/-- Claim C3: if any fetched target of a bulk status transition lies
outside the scope of the caller (Admin with a truthy company claim: a
different company; SubAdmin: a different company, or a different ship when
the ship claim is present), the whole request answers Forbidden with the
violating id listed and the users table is returned exactly as it was —
the rollback happens before any per-row UPDATE runs. -/
theorem bulk_scope_violation_rolls_back (hashFn encFn : String → String)
    (gen : Int → String × String) (p : Principal) (req : BulkRequest)
    (db : List UserRow) (c : String)
    (hcomp : p.company_id = some c) (hct : ¬ c = "")
    (hstat : ¬ bulkStatusString req.status = "")
    (hsv : isOnboard (some (bulkStatusString req.status)) = true ∨
      normalizeStatus (some (bulkStatusString req.status)) = some "offboard")
    (u : UserRow) (hu : u ∈ db) (hid : u.user_id ∈ req.user_ids) (hpos : 0 < u.user_id)
    (hviol : (p.role_id = 2 ∧ ¬ jsStringOfOptStr u.company_id = c) ∨
      (p.role_id = 3 ∧ ¬ jsStringOfOptStr u.company_id = c) ∨
      (p.role_id = 3 ∧ ∃ s, p.ship_id = some s ∧ ¬ jsNumOfOptInt u.ship_id = s)) :
    bulkUpdateUserStatus hashFn encFn gen p req db =
      (.forbidden (bulkViolations p req db), db) ∧
    u.user_id ∈ bulkViolations p req db := by
  have hids : u.user_id ∈ bulkIds req := by
    refine List.mem_filter.2 ⟨hid, ?_⟩
    simpa using hpos
  have hfetch : u ∈ bulkFetched req db := by
    refine List.mem_filter.2 ⟨hu, ?_⟩
    simpa using hids
  have hmyc : bulkMyCompany p = some c := by
    simp [bulkMyCompany, hcomp, jsTruthyStr, jsStringOfOptStr, hct]
  have hvfor : u.user_id ∈ bulkViolationsFor p (bulkMyCompany p) p.ship_id u := by
    rw [hmyc]
    rcases hviol with ⟨hr, hm⟩ | ⟨hr, hm⟩ | ⟨hr, s, hs, hm⟩
    · simp [bulkViolationsFor, hr, hm]
    · simp [bulkViolationsFor, hr, hm]
    · simp [bulkViolationsFor, hr, hm, hs]
  have hvmem : u.user_id ∈ bulkViolations p req db :=
    List.mem_flatMap.2 ⟨u, hfetch, hvfor⟩
  have h1 : req.user_ids.isEmpty = false := by
    simp [List.isEmpty_iff]
    exact List.ne_nil_of_mem hid
  have h2 : (bulkStatusString req.status == "") = false := by simp [hstat]
  have h3 : (!(isOnboard (some (bulkStatusString req.status))) &&
      !(normalizeStatus (some (bulkStatusString req.status)) == some "offboard")) = false := by
    rcases hsv with h | h <;> simp [h]
  have h4 : (bulkIds req).isEmpty = false := by
    simp [List.isEmpty_iff]
    exact List.ne_nil_of_mem hids
  have h5 : (bulkFetched req db).isEmpty = false := by
    simp [List.isEmpty_iff]
    exact List.ne_nil_of_mem hfetch
  have h6 : (bulkViolations p req db).isEmpty = false := by
    simp [List.isEmpty_iff]
    exact List.ne_nil_of_mem hvmem
  refine ⟨?_, hvmem⟩
  unfold bulkUpdateUserStatus
  rw [h1]
  simp only [Bool.false_eq_true, if_false, h2, h3, Bool.or_self, h4, h5, h6,
    Bool.not_false, if_true]

/-- Witness for C3 at a concrete input: an admin of company A bulk-offboards
user 2 of company B; the request is Forbidden with violation [2] and the
table is unchanged. -/
theorem bulk_scope_violation_rolls_back_witness :
    bulkUpdateUserStatus (fun s => s) (fun s => s) (fun _ => ("g", "p"))
        ⟨2, some "A", none, 1⟩ ⟨[2], some "Offboard", false⟩
        [⟨2, "SF2", "Bob", none, none, none, none, some "Onboard", some "u2", some "h2",
          some "e2", some 1, some "B", 4⟩] =
      (.forbidden [2],
        [⟨2, "SF2", "Bob", none, none, none, none, some "Onboard", some "u2", some "h2",
          some "e2", some 1, some "B", 4⟩]) := by
  have h := bulk_scope_violation_rolls_back (fun s => s) (fun s => s) (fun _ => ("g", "p"))
    ⟨2, some "A", none, 1⟩ ⟨[2], some "Offboard", false⟩
    [⟨2, "SF2", "Bob", none, none, none, none, some "Onboard", some "u2", some "h2",
      some "e2", some 1, some "B", 4⟩] "A" rfl (by decide) (by decide)
    (Or.inr (by decide))
    ⟨2, "SF2", "Bob", none, none, none, none, some "Onboard", some "u2", some "h2",
      some "e2", some 1, some "B", 4⟩
    (List.mem_cons_self _ _) (by decide) (by decide)
    (Or.inl ⟨rfl, by decide⟩)
  exact h.1.trans (by rfl)

/-! Auth controller: login gate ordering and the admin password paths. -/

/-- The `isAdminRole` helper of the auth controller: roles 1, 2, 3. -/
def isAdminRole (roleId : Int) : Bool :=
  roleId == 1 || roleId == 2 || roleId == 3

/-- Outcomes of POST /auth/login (HTTP 400, 401, 403, 200). -/
inductive LoginResult where
  | badRequest
  | invalidCredentials
  | notOnboard
  | success (user_id : Int)
deriving Repr, DecidableEq

/-- POST /auth/login: require both fields, look the username up (401 when
unknown), require onboard status for non-admin roles (403 before any
password comparison), then compare the password hash (401 on mismatch).
Token and refresh-session issuance on success are elided; the claims
concern the gate ordering and result kinds only. -/
def login (hashFn : String → String) (db : List UserRow) (username password : String) :
    LoginResult :=
  if username == "" || password == "" then .badRequest
  else
    match db.find? (fun u => sqlEqStr u.username (some username)) with
    | none => .invalidCredentials
    | some user =>
      if !isAdminRole user.role_id && !isOnboard user.status then .notOnboard
      else if !(user.password_hash == some (hashFn password)) then .invalidCredentials
      else .success user.user_id

/-- Claim C10: for a crew (non-admin-role) account whose stored status does
not normalize to onboard, login answers the 403 not-onboard result for
every supplied password — the hash comparison is never reached, so the
response does not depend on the password — and this 403 differs from the
401 answered for an unknown username. -/
theorem crew_offboard_login_independent_of_password (hashFn : String → String)
    (db : List UserRow) (username : String) (u : UserRow)
    (hun : ¬ username = "")
    (hfind : db.find? (fun r => sqlEqStr r.username (some username)) = some u)
    (hrole : isAdminRole u.role_id = false)
    (hob : isOnboard u.status = false) :
    (∀ password, ¬ password = "" →
      login hashFn db username password = .notOnboard) ∧
    (∀ pw1 pw2, ¬ pw1 = "" → ¬ pw2 = "" →
      login hashFn db username pw1 = login hashFn db username pw2) ∧
    (∀ other password, ¬ other = "" → ¬ password = "" →
      db.find? (fun r => sqlEqStr r.username (some other)) = none →
      login hashFn db other password = .invalidCredentials ∧
        LoginResult.invalidCredentials ≠ LoginResult.notOnboard) := by
  have key : ∀ password, ¬ password = "" →
      login hashFn db username password = .notOnboard := by
    intro pw hpw
    simp [login, hun, hpw, hfind, hrole, hob]
  refine ⟨key, ?_, ?_⟩
  · intro pw1 pw2 h1 h2
    rw [key pw1 h1, key pw2 h2]
  · intro other pw ho hpw hnone
    constructor
    · simp [login, ho, hpw, hnone]
    · decide

/-- Witness for C10 at a concrete input: an offboarded crew account gets the
not-onboard result both for its correct password and for a wrong one. -/
theorem crew_offboard_login_independent_of_password_witness :
    login (fun s => s) [⟨1, "SF1", "Ann", none, none, none, none, some "Offboard",
        some "user1", some "pw1", some "e1", some 1, some "A", 4⟩] "user1" "pw1" =
      .notOnboard ∧
    login (fun s => s) [⟨1, "SF1", "Ann", none, none, none, none, some "Offboard",
        some "user1", some "pw1", some "e1", some 1, some "A", 4⟩] "user1" "wrong" =
      .notOnboard := by
  have h := crew_offboard_login_independent_of_password (fun s => s)
    [⟨1, "SF1", "Ann", none, none, none, none, some "Offboard", some "user1", some "pw1",
      some "e1", some 1, some "A", 4⟩] "user1"
    ⟨1, "SF1", "Ann", none, none, none, none, some "Offboard", some "user1", some "pw1",
      some "e1", some 1, some "A", 4⟩
    (by decide) (by decide) (by decide) (by decide)
  exact ⟨h.1 "pw1" (by decide), h.1 "wrong" (by decide)⟩

/-- The `canAdmin` role gate of the auth controller: roles 1, 2, 3. -/
def canAdmin (roleId : Int) : Bool :=
  roleId == 1 || roleId == 2 || roleId == 3

/-- The `ensureUserScopeForAdmin` check: superadmin passes unconditionally;
admin and subadmin look the target row up and compare tenancy, and a
missing target row yields false; every other role yields false. -/
def ensureUserScopeForAdmin (p : Principal) (targetUserId : Int) (db : List UserRow) : Bool :=
  if p.role_id == 1 then true
  else if p.role_id == 2 then
    match db.find? (fun r => r.user_id == targetUserId) with
    | none => false
    | some r => jsStringOfOptStr r.company_id == jsStringOfOptStr p.company_id
  else if p.role_id == 3 then
    match db.find? (fun r => r.user_id == targetUserId) with
    | none => false
    | some r =>
      jsStringOfOptStr r.company_id == jsStringOfOptStr p.company_id &&
        jsNumOfOptInt r.ship_id == jsNumOfOptInt p.ship_id
  else false

/-- Outcomes of the admin view-password path. -/
inductive AdminViewResult where
  | forbidden
  | badRequest
  | forbiddenScope
  | notFound
  | ok (user_id : Int) (username : Option String) (password_enc : Option String)
deriving Repr, DecidableEq

/-- GET (admin) view-password for a target user id: the role gate, the id
validity check (`!targetUserId`), the scope check, then the target fetch
answering 404 when absent. The ok payload carries the stored encrypted
password; its recovery decryption is modelled separately by
`decryptPassword`. -/
def adminViewPassword (p : Principal) (targetUserId : Int) (db : List UserRow) :
    AdminViewResult :=
  if !canAdmin p.role_id then .forbidden
  else if targetUserId == 0 then .badRequest
  else if !ensureUserScopeForAdmin p targetUserId db then .forbiddenScope
  else
    match db.find? (fun r => r.user_id == targetUserId) with
    | none => .notFound
    | some r => .ok r.user_id r.username r.password_enc

/-- Counterexample to claim C6: an admin of company A asking for the
password of nonexistent user 99 receives Forbidden (scope), not NotFound —
the scope check runs before the existence check and treats the missing row
as out of scope. -/
theorem notfound_before_scope_cex :
    adminViewPassword ⟨2, some "A", none, 10⟩ 99 [] = .forbiddenScope ∧
    ¬ adminViewPassword ⟨2, some "A", none, 10⟩ 99 [] = .notFound := by
  refine ⟨rfl, ?_⟩
  intro h
  simp [adminViewPassword, canAdmin, ensureUserScopeForAdmin] at h

/-- Claim C6 as amended: on the admin write paths the nonexistent-target
NotFound answer is produced only for SuperAdmin callers; for Admin and
SubAdmin callers the scope check runs first and a nonexistent target id
yields Forbidden (scope), because `ensureUserScopeForAdmin` treats the
missing row as out of scope. -/
theorem notfound_before_scope_amended (p : Principal) (t : Int) (db : List UserRow)
    (ht : ¬ t = 0)
    (hmiss : db.find? (fun r => r.user_id == t) = none) :
    (p.role_id = 1 → adminViewPassword p t db = .notFound) ∧
    (p.role_id = 2 ∨ p.role_id = 3 →
      adminViewPassword p t db = .forbiddenScope) := by
  constructor
  · intro h1
    simp [adminViewPassword, canAdmin, ensureUserScopeForAdmin, h1, ht, hmiss]
  · rintro (h | h) <;>
      simp [adminViewPassword, canAdmin, ensureUserScopeForAdmin, h, ht, hmiss]

/-- Witness for the amended C6 at concrete inputs: superadmin gets NotFound
for a nonexistent target, admin gets Forbidden (scope). -/
theorem notfound_before_scope_amended_witness :
    adminViewPassword ⟨1, none, none, 10⟩ 99 [] = .notFound ∧
    adminViewPassword ⟨2, some "A", none, 10⟩ 7 [] = .forbiddenScope := by
  refine ⟨?_, ?_⟩
  · exact (notfound_before_scope_amended ⟨1, none, none, 10⟩ 99 [] (by decide) rfl).1 rfl
  · exact (notfound_before_scope_amended ⟨2, some "A", none, 10⟩ 7 [] (by decide) rfl).2
      (Or.inl rfl)

/-! Reversible password encryption: the token format
`base64(iv).base64(tag).base64(ciphertext)` produced by `encryptPassword`
and parsed by `decryptPassword` in the users controller. Tokens are
modelled as lists of character codes; the AES-256-GCM primitive of the
crypto library is an abstract authenticated-encryption scheme whose
contract (correctness and authenticity) is a parameter. The base64 decoder
is the forgiving byte-level decoder (non-alphabet characters are skipped,
trailing bits of the last partial quantum are discarded), matching the
Buffer base64 semantics the code relies on. -/

/-- Character code of a base64 digit value (0-63). -/
def valToCode (v : Nat) : Nat :=
  if v < 26 then 65 + v
  else if v < 52 then 97 + v - 26
  else if v < 62 then 48 + v - 52
  else if v = 62 then 43
  else 47

/-- Base64 digit value of a character code, none for non-alphabet
characters (including the pad 61 and the dot 46). -/
def codeToVal (n : Nat) : Option Nat :=
  if 65 ≤ n ∧ n ≤ 90 then some (n - 65)
  else if 97 ≤ n ∧ n ≤ 122 then some (n - 97 + 26)
  else if 48 ≤ n ∧ n ≤ 57 then some (n - 48 + 52)
  else if n = 43 then some 62
  else if n = 47 then some 63
  else none

/-- Standard base64 encoding of a byte list to character codes, with pad
characters (code 61). -/
def base64EncodeCodes : List Nat → List Nat
  | [] => []
  | [b1] => [valToCode (b1 / 4), valToCode (b1 % 4 * 16), 61, 61]
  | [b1, b2] =>
    [valToCode (b1 / 4), valToCode (b1 % 4 * 16 + b2 / 16), valToCode (b2 % 16 * 4), 61]
  | b1 :: b2 :: b3 :: rest =>
    valToCode (b1 / 4) :: valToCode (b1 % 4 * 16 + b2 / 16) ::
      valToCode (b2 % 16 * 4 + b3 / 64) :: valToCode (b3 % 64) :: base64EncodeCodes rest

/-- The sextet stream the encoder emits for a byte list (pads excluded). -/
def base64Sextets : List Nat → List Nat
  | [] => []
  | [b1] => [b1 / 4, b1 % 4 * 16]
  | [b1, b2] => [b1 / 4, b1 % 4 * 16 + b2 / 16, b2 % 16 * 4]
  | b1 :: b2 :: b3 :: rest =>
    b1 / 4 :: (b1 % 4 * 16 + b2 / 16) :: (b2 % 16 * 4 + b3 / 64) :: b3 % 64 ::
      base64Sextets rest

/-- Bytes reconstructed from a sextet stream; trailing bits of a partial
quantum are discarded (forgiving decode). -/
def sextetsToBytes : List Nat → List Nat
  | s1 :: s2 :: s3 :: s4 :: rest =>
    (s1 * 4 + s2 / 16) :: (s2 % 16 * 16 + s3 / 4) :: (s3 % 4 * 64 + s4) ::
      sextetsToBytes rest
  | [s1, s2] => [s1 * 4 + s2 / 16]
  | [s1, s2, s3] => [s1 * 4 + s2 / 16, s2 % 16 * 16 + s3 / 4]
  | _ => []

/-- Forgiving base64 decode of a character-code list. -/
def base64DecodeCodes (s : List Nat) : List Nat :=
  sextetsToBytes (s.filterMap codeToVal)

theorem codeToVal_valToCode (v : Nat) (h : v < 64) : codeToVal (valToCode v) = some v := by
  unfold valToCode codeToVal
  split_ifs <;> first | (simp only [Option.some.injEq]; omega) | (exfalso; omega)

theorem valToCode_ne_dot (v : Nat) : valToCode v ≠ 46 := by
  unfold valToCode
  split_ifs <;> omega

theorem codeToVal_pad : codeToVal 61 = none := rfl

theorem mem_base64EncodeCodes (l : List Nat) (x : Nat) (hx : x ∈ base64EncodeCodes l) :
    (∃ v, x = valToCode v) ∨ x = 61 := by
  induction l using base64EncodeCodes.induct with
  | case1 => simp [base64EncodeCodes] at hx
  | case2 b1 =>
    simp [base64EncodeCodes] at hx
    rcases hx with h | h | h
    · exact Or.inl ⟨_, h⟩
    · exact Or.inl ⟨_, h⟩
    · exact Or.inr h
  | case3 b1 b2 =>
    simp [base64EncodeCodes] at hx
    rcases hx with h | h | h | h
    · exact Or.inl ⟨_, h⟩
    · exact Or.inl ⟨_, h⟩
    · exact Or.inl ⟨_, h⟩
    · exact Or.inr h
  | case4 b1 b2 b3 rest ih =>
    simp only [base64EncodeCodes, List.mem_cons] at hx
    rcases hx with h | h | h | h | h
    · exact Or.inl ⟨_, h⟩
    · exact Or.inl ⟨_, h⟩
    · exact Or.inl ⟨_, h⟩
    · exact Or.inl ⟨_, h⟩
    · exact ih h

theorem mem_base64EncodeCodes_ne_dot (l : List Nat) :
    ∀ x ∈ base64EncodeCodes l, x ≠ 46 := by
  intro x hx
  rcases mem_base64EncodeCodes l x hx with ⟨v, hv⟩ | h
  · exact hv ▸ valToCode_ne_dot v
  · omega

theorem base64EncodeCodes_ne_nil (l : List Nat) (h : l ≠ []) :
    base64EncodeCodes l ≠ [] := by
  cases l with
  | nil => exact absurd rfl h
  | cons b1 rest =>
    cases rest with
    | nil => simp [base64EncodeCodes]
    | cons b2 rest2 =>
      cases rest2 with
      | nil => simp [base64EncodeCodes]
      | cons b3 rest3 => simp [base64EncodeCodes]

theorem filterMap_codeToVal_encode (l : List Nat) (h : ∀ b ∈ l, b < 256) :
    (base64EncodeCodes l).filterMap codeToVal = base64Sextets l := by
  induction l using base64EncodeCodes.induct
  · rfl
  · rename_i b1
    have hb1 : b1 < 256 := h b1 (by simp)
    simp [base64EncodeCodes, base64Sextets, List.filterMap_cons,
      codeToVal_valToCode _ (by omega : b1 / 4 < 64),
      codeToVal_valToCode _ (by omega : b1 % 4 * 16 < 64), codeToVal_pad]
  · rename_i b1 b2
    have hb1 : b1 < 256 := h b1 (by simp)
    have hb2 : b2 < 256 := h b2 (by simp)
    simp [base64EncodeCodes, base64Sextets, List.filterMap_cons,
      codeToVal_valToCode _ (by omega : b1 / 4 < 64),
      codeToVal_valToCode _ (by omega : b1 % 4 * 16 + b2 / 16 < 64),
      codeToVal_valToCode _ (by omega : b2 % 16 * 4 < 64), codeToVal_pad]
  · rename_i b1 b2 b3 rest ih
    have hb1 : b1 < 256 := h b1 (by simp)
    have hb2 : b2 < 256 := h b2 (by simp)
    have hb3 : b3 < 256 := h b3 (by simp)
    have hrest : ∀ b ∈ rest, b < 256 := fun b hb => h b (by simp [hb])
    simp [base64EncodeCodes, base64Sextets, List.filterMap_cons,
      codeToVal_valToCode _ (by omega : b1 / 4 < 64),
      codeToVal_valToCode _ (by omega : b1 % 4 * 16 + b2 / 16 < 64),
      codeToVal_valToCode _ (by omega : b2 % 16 * 4 + b3 / 64 < 64),
      codeToVal_valToCode _ (by omega : b3 % 64 < 64), ih hrest]

theorem sextetsToBytes_base64Sextets (l : List Nat) (h : ∀ b ∈ l, b < 256) :
    sextetsToBytes (base64Sextets l) = l := by
  induction l using base64Sextets.induct
  · rfl
  · rename_i b1
    have hb1 : b1 < 256 := h b1 (by simp)
    simp only [base64Sextets, sextetsToBytes]
    congr 1
    omega
  · rename_i b1 b2
    have hb1 : b1 < 256 := h b1 (by simp)
    have hb2 : b2 < 256 := h b2 (by simp)
    simp only [base64Sextets, sextetsToBytes]
    congr 1
    · omega
    · congr 1
      omega
  · rename_i b1 b2 b3 rest ih
    have hb1 : b1 < 256 := h b1 (by simp)
    have hb2 : b2 < 256 := h b2 (by simp)
    have hb3 : b3 < 256 := h b3 (by simp)
    have hrest : ∀ b ∈ rest, b < 256 := fun b hb => h b (by simp [hb])
    simp only [base64Sextets, sextetsToBytes]
    congr 1
    · omega
    · congr 1
      · omega
      · congr 1
        · omega
        · exact ih hrest

theorem base64_decode_encode (l : List Nat) (h : ∀ b ∈ l, b < 256) :
    base64DecodeCodes (base64EncodeCodes l) = l := by
  unfold base64DecodeCodes
  rw [filterMap_codeToVal_encode l h, sextetsToBytes_base64Sextets l h]

/-- JS `String.prototype.split` on the dot character (code 46). -/
def splitOnDot : List Nat → List (List Nat)
  | [] => [[]]
  | c :: rest =>
    if c == 46 then [] :: splitOnDot rest
    else
      match splitOnDot rest with
      | [] => [[c]]
      | g :: gs => (c :: g) :: gs

theorem splitOnDot_ne_nil (l : List Nat) : splitOnDot l ≠ [] := by
  cases l with
  | nil => simp [splitOnDot]
  | cons c rest =>
    by_cases h : (c == 46) = true
    · simp [splitOnDot, h]
    · simp only [splitOnDot, h, Bool.false_eq_true, if_false]
      rcases hs : splitOnDot rest with _ | ⟨g, gs⟩ <;> simp

theorem splitOnDot_no_dot (l : List Nat) (h : ∀ x ∈ l, x ≠ 46) :
    splitOnDot l = [l] := by
  induction l with
  | nil => rfl
  | cons c rest ih =>
    have hc : (c == 46) = false := by
      simp only [beq_eq_false_iff_ne, ne_eq]
      exact h c (by simp)
    have hrest : splitOnDot rest = [rest] := ih fun x hx => h x (by simp [hx])
    simp [splitOnDot, hc, hrest]

theorem splitOnDot_append (xs rest : List Nat) (h : ∀ x ∈ xs, x ≠ 46) :
    splitOnDot (xs ++ 46 :: rest) = xs :: splitOnDot rest := by
  induction xs with
  | nil => simp [splitOnDot]
  | cons c xs2 ih =>
    have hc : (c == 46) = false := by
      simp only [beq_eq_false_iff_ne, ne_eq]
      exact h c (by simp)
    have hxs : splitOnDot (xs2 ++ 46 :: rest) = xs2 :: splitOnDot rest :=
      ih fun x hx => h x (by simp [hx])
    simp [splitOnDot, hc, hxs]

/-- The authenticated-encryption primitive (AES-256-GCM of the crypto
library, abstracted): `enc key iv message` yields (tag, ciphertext);
`dec key iv tag ciphertext` yields the plaintext or fails. -/
structure AEAD where
  enc : List Nat → List Nat → List Nat → List Nat × List Nat
  dec : List Nat → List Nat → List Nat → List Nat → Option (List Nat)

/-- Contract of the AEAD primitive: decryption inverts encryption;
decryption succeeds only on the authentic (tag, ciphertext) of its output
(ideal authenticity of GCM); tag and ciphertext are byte values; the tag is
nonempty (16 bytes for GCM) and the ciphertext has the message length. -/
structure AEADContract (A : AEAD) : Prop where
  dec_enc : ∀ k iv m, A.dec k iv (A.enc k iv m).1 (A.enc k iv m).2 = some m
  auth : ∀ k iv t c m, A.dec k iv t c = some m → (t, c) = A.enc k iv m
  tag_bytes : ∀ k iv m, ∀ b ∈ (A.enc k iv m).1, b < 256
  ct_bytes : ∀ k iv m, (∀ b ∈ m, b < 256) → ∀ b ∈ (A.enc k iv m).2, b < 256
  tag_ne_nil : ∀ k iv m, (A.enc k iv m).1 ≠ []
  ct_len : ∀ k iv m, (A.enc k iv m).2.length = m.length

/-- The `encryptPassword` helper:
`base64(iv) ++ "." ++ base64(tag) ++ "." ++ base64(ciphertext)`. The
plaintext is its utf8 byte sequence; the random iv is a parameter. -/
def encryptPassword (A : AEAD) (key iv plain : List Nat) : List Nat :=
  base64EncodeCodes iv ++
    (46 :: (base64EncodeCodes (A.enc key iv plain).1 ++
      (46 :: base64EncodeCodes (A.enc key iv plain).2)))

/-- The `decryptPassword` helper of the users controller: null on a falsy
stored value, split the token on dots, require the first three components
truthy, base64-decode them and attempt authenticated decryption; every
failure (including an exception from the primitive) is swallowed and
surfaced as null. -/
def decryptPassword (A : AEAD) (key : List Nat) : Option (List Nat) → Option (List Nat)
  | none => none
  | some t =>
    if t.isEmpty then none
    else if ((splitOnDot t).getD 0 []).isEmpty || ((splitOnDot t).getD 1 []).isEmpty ||
        ((splitOnDot t).getD 2 []).isEmpty then none
    else
      A.dec key (base64DecodeCodes ((splitOnDot t).getD 0 []))
        (base64DecodeCodes ((splitOnDot t).getD 1 []))
        (base64DecodeCodes ((splitOnDot t).getD 2 []))

/-- Claim C8 as amended: for any AEAD primitive meeting its contract and
any nonempty byte plaintext, decrypting the produced token returns exactly
the plaintext; and decryption is fail-closed in the sense that it never
throws (it is a total function into Option) and only returns a plaintext
whose encryption under the decoded iv reproduces the decoded tag and
ciphertext — so a tamper that changes the decoded triple yields null, while
a tamper inside the discarded base64 padding bits leaves the decoded triple
unchanged and returns the original plaintext, and the empty plaintext
yields an empty ciphertext component that the parser treats as malformed. -/
theorem password_token_roundtrip_and_fail_closed (A : AEAD) (hA : AEADContract A)
    (key iv plain : List Nat)
    (hivb : ∀ b ∈ iv, b < 256) (hivne : iv ≠ [])
    (hpb : ∀ b ∈ plain, b < 256) (hpne : plain ≠ []) :
    decryptPassword A key (some (encryptPassword A key iv plain)) = some plain ∧
    (∀ t m, decryptPassword A key (some t) = some m →
      (base64DecodeCodes ((splitOnDot t).getD 1 []),
        base64DecodeCodes ((splitOnDot t).getD 2 [])) =
        A.enc key (base64DecodeCodes ((splitOnDot t).getD 0 [])) m) := by
  constructor
  · have hsplit : splitOnDot (encryptPassword A key iv plain) =
        [base64EncodeCodes iv, base64EncodeCodes (A.enc key iv plain).1,
          base64EncodeCodes (A.enc key iv plain).2] := by
      unfold encryptPassword
      rw [splitOnDot_append _ _ (mem_base64EncodeCodes_ne_dot iv),
        splitOnDot_append _ _ (mem_base64EncodeCodes_ne_dot (A.enc key iv plain).1),
        splitOnDot_no_dot _ (mem_base64EncodeCodes_ne_dot (A.enc key iv plain).2)]
    have hne : (encryptPassword A key iv plain).isEmpty = false := by
      unfold encryptPassword
      cases hbe : base64EncodeCodes iv <;> simp
    have hct : (A.enc key iv plain).2 ≠ [] := by
      intro hc
      have := hA.ct_len key iv plain
      rw [hc] at this
      exact hpne (List.eq_nil_of_length_eq_zero this.symm)
    have ha : (base64EncodeCodes iv).isEmpty = false := by
      simp [List.isEmpty_iff, base64EncodeCodes_ne_nil iv hivne]
    have hb : (base64EncodeCodes (A.enc key iv plain).1).isEmpty = false := by
      simp [List.isEmpty_iff,
        base64EncodeCodes_ne_nil _ (hA.tag_ne_nil key iv plain)]
    have hc : (base64EncodeCodes (A.enc key iv plain).2).isEmpty = false := by
      simp [List.isEmpty_iff, base64EncodeCodes_ne_nil _ hct]
    simp only [decryptPassword, hne, Bool.false_eq_true, if_false, hsplit,
      List.getD_cons_zero, List.getD_cons_succ, ha, hb, hc, Bool.or_self]
    rw [base64_decode_encode iv hivb,
      base64_decode_encode _ (hA.tag_bytes key iv plain),
      base64_decode_encode _ (hA.ct_bytes key iv plain hpb),
      hA.dec_enc key iv plain]
  · intro t m hm
    simp only [decryptPassword] at hm
    split_ifs at hm with h1 h2
    exact hA.auth _ _ _ _ _ hm

/-- The demonstration AEAD instance used for concrete evaluation: the
ciphertext is the message and the tag is a one-byte checksum. -/
def demoAEAD : AEAD where
  enc := fun key iv m => ([(key.sum + iv.sum + m.sum + m.length) % 251], m)
  dec := fun key iv t c =>
    if t == [(key.sum + iv.sum + c.sum + c.length) % 251] then some c else none

theorem demoAEAD_contract : AEADContract demoAEAD := by
  constructor
  · intro k iv m
    simp [demoAEAD]
  · intro k iv t c m h
    unfold demoAEAD at h
    dsimp only at h
    by_cases ht : (t == [(k.sum + iv.sum + c.sum + c.length) % 251]) = true
    · rw [ht] at h
      simp only [if_true, Option.some.injEq] at h
      subst h
      simp only [demoAEAD, Prod.mk.injEq]
      exact ⟨by simpa using ht, trivial⟩
    · simp only [Bool.not_eq_true] at ht
      rw [ht] at h
      simp at h
  · intro k iv m b hb
    simp only [demoAEAD, List.mem_singleton] at hb
    subst hb
    have : (k.sum + iv.sum + m.sum + m.length) % 251 < 251 := Nat.mod_lt _ (by omega)
    omega
  · intro k iv m hm b hb
    exact hm b hb
  · intro k iv m
    simp [demoAEAD]
  · intro k iv m
    rfl

/-- Counterexample to claim C8 as stated: with the demonstration AEAD, the
honest token of plaintext [65, 66, 67] under key [1, 2, 3] round-trips; but
altering the single character at index 18 (inside the discarded low bits of
the final base64 quantum of the tag component) yields a different token of
the same length whose decryption still returns the original plaintext
rather than null; and the empty plaintext does not round-trip (decryption
returns null because the empty ciphertext component is falsy). -/
theorem tampered_token_returns_plaintext_cex :
    decryptPassword demoAEAD [1, 2, 3]
        (some (encryptPassword demoAEAD [1, 2, 3]
          [0, 0, 0, 0, 0, 0, 0, 0, 0, 0, 0, 0] [65, 66, 67])) = some [65, 66, 67] ∧
    (encryptPassword demoAEAD [1, 2, 3]
        [0, 0, 0, 0, 0, 0, 0, 0, 0, 0, 0, 0] [65, 66, 67]).set 18 120 ≠
      encryptPassword demoAEAD [1, 2, 3]
        [0, 0, 0, 0, 0, 0, 0, 0, 0, 0, 0, 0] [65, 66, 67] ∧
    ((encryptPassword demoAEAD [1, 2, 3]
        [0, 0, 0, 0, 0, 0, 0, 0, 0, 0, 0, 0] [65, 66, 67]).set 18 120).length =
      (encryptPassword demoAEAD [1, 2, 3]
        [0, 0, 0, 0, 0, 0, 0, 0, 0, 0, 0, 0] [65, 66, 67]).length ∧
    decryptPassword demoAEAD [1, 2, 3]
        (some ((encryptPassword demoAEAD [1, 2, 3]
          [0, 0, 0, 0, 0, 0, 0, 0, 0, 0, 0, 0] [65, 66, 67]).set 18 120)) =
      some [65, 66, 67] ∧
    decryptPassword demoAEAD [1, 2, 3]
        (some (encryptPassword demoAEAD [1, 2, 3]
          [0, 0, 0, 0, 0, 0, 0, 0, 0, 0, 0, 0] [])) = none := by
  decide

/-- Witness for the amended C8 at a concrete input: the demonstration AEAD
meets the contract and the token of [65, 66, 67] round-trips. -/
theorem password_token_roundtrip_witness :
    decryptPassword demoAEAD [1, 2, 3]
        (some (encryptPassword demoAEAD [1, 2, 3]
          [0, 0, 0, 0, 0, 0, 0, 0, 0, 0, 0, 0] [65, 66, 67])) = some [65, 66, 67] :=
  (password_token_roundtrip_and_fail_closed demoAEAD demoAEAD_contract [1, 2, 3]
    [0, 0, 0, 0, 0, 0, 0, 0, 0, 0, 0, 0] [65, 66, 67]
    (by decide) (by decide) (by decide) (by decide)).1

/-! Plaintext password exposure in read responses: the
`attachPlainPasswordIfAllowed` helper applied by GET /users and
GET /users/:id. -/

/-- Character codes of a JS string (utf8-range code points). -/
def strCodes (s : String) : List Nat := s.data.map Char.toNat

/-- The `canSeePlainPassword` allow-list: `[1, 2, 3].includes(Number(roleId))`. -/
def canSeePlainPassword (roleId : Int) : Bool :=
  roleId == 1 || roleId == 2 || roleId == 3

/-- A user row as serialized into a response, with the optional attached
`plain_password` field: outer none when the field is absent from the
response, inner value the decryption result (null for unrecoverable). -/
structure UserOut where
  row : UserRow
  plain_password : Option (Option (List Nat))
deriving Repr, DecidableEq

/-- The `attachPlainPasswordIfAllowed` helper: for roles 1-3 spread the row
and add `plain_password: decryptPassword(password_enc)`; otherwise return
the row unchanged. -/
def attachPlainPasswordIfAllowed (A : AEAD) (key : List Nat) (roleId : Int)
    (u : UserRow) : UserOut :=
  if canSeePlainPassword roleId then
    ⟨u, some (decryptPassword A key (u.password_enc.map strCodes))⟩
  else ⟨u, none⟩

/-- GET /users/:id response body: the fetched row with the conditional
plaintext attachment. -/
def getUserByIdOut (A : AEAD) (key : List Nat) (p : Principal) (id : Int)
    (db : List UserRow) : Option UserOut :=
  (getUserByIdFetch id db).map (attachPlainPasswordIfAllowed A key p.role_id)

/-- GET /users response body: the scoped rows, each with the conditional
plaintext attachment. -/
def getAllUsersOut (A : AEAD) (key : List Nat) (p : Principal)
    (db : List UserRow) : List UserOut :=
  (getAllUsersRows p db).map (attachPlainPasswordIfAllowed A key p.role_id)

/-- Counterexample to claim C9: for an admin caller (role 2), the
GET /users/:id response of a stored row whose password_enc is the token of
plaintext [65, 66, 67] contains `plain_password = [65, 66, 67]` — the
decrypted plaintext is retrievable from read responses long after the
generating call; the list response exposes it the same way. -/
theorem read_responses_contain_plaintext_cex :
    getUserByIdOut demoAEAD [1, 2, 3] ⟨2, some "A", none, 10⟩ 1
        [⟨1, "SF1", "Ann", none, none, none, none, some "Onboard", some "u1", some "h1",
          some "AAAAAAAAAAAAAAAA.zw==.QUJD", some 1, some "A", 4⟩] =
      some
        ⟨⟨1, "SF1", "Ann", none, none, none, none, some "Onboard", some "u1", some "h1",
          some "AAAAAAAAAAAAAAAA.zw==.QUJD", some 1, some "A", 4⟩,
          some (some [65, 66, 67])⟩ ∧
    getAllUsersOut demoAEAD [1, 2, 3] ⟨2, some "A", none, 10⟩
        [⟨1, "SF1", "Ann", none, none, none, none, some "Onboard", some "u1", some "h1",
          some "AAAAAAAAAAAAAAAA.zw==.QUJD", some 1, some "A", 4⟩] =
      [⟨⟨1, "SF1", "Ann", none, none, none, none, some "Onboard", some "u1", some "h1",
          some "AAAAAAAAAAAAAAAA.zw==.QUJD", some 1, some "A", 4⟩,
          some (some [65, 66, 67])⟩] := by
  decide

/-- Claim C9 as amended: besides the direct responses of the generating
calls and the explicit admin recovery path, the users list and get-by-id
responses also expose the decrypted plaintext — but only to roles 1-3, as
a plain_password field decrypted from the stored token; responses produced
for crew callers (role 4, or any role outside the allow-list) never carry
the field. -/
theorem plaintext_exposure_amended (A : AEAD) (key : List Nat) (roleId : Int)
    (u : UserRow) (p : Principal) (id : Int) (db : List UserRow) :
    (canSeePlainPassword roleId = false →
      attachPlainPasswordIfAllowed A key roleId u = ⟨u, none⟩) ∧
    (canSeePlainPassword roleId = true →
      attachPlainPasswordIfAllowed A key roleId u =
        ⟨u, some (decryptPassword A key (u.password_enc.map strCodes))⟩) ∧
    (p.role_id = 4 → ∀ out ∈ getAllUsersOut A key p db, out.plain_password = none) ∧
    (p.role_id = 4 → ∀ out, getUserByIdOut A key p id db = some out →
      out.plain_password = none) := by
  have hattach : ∀ u2, canSeePlainPassword 4 = false →
      attachPlainPasswordIfAllowed A key 4 u2 = ⟨u2, none⟩ := by
    intro u2 h
    simp [attachPlainPasswordIfAllowed, h]
  refine ⟨?_, ?_, ?_, ?_⟩
  · intro h
    simp [attachPlainPasswordIfAllowed, h]
  · intro h
    simp [attachPlainPasswordIfAllowed, h]
  · intro h4 out hout
    unfold getAllUsersOut at hout
    rcases List.mem_map.1 hout with ⟨r, _, hr⟩
    rw [h4] at hr
    rw [← hr, hattach r (by decide)]
  · intro h4 out hout
    unfold getUserByIdOut at hout
    rcases Option.map_eq_some'.1 hout with ⟨r, _, hr⟩
    rw [h4] at hr
    rw [← hr, hattach r (by decide)]

/-- Witness for the amended C9 at a concrete input: a crew caller fetching
its own row gets a response without any plain_password field. -/
theorem plaintext_exposure_amended_witness :
    getUserByIdOut demoAEAD [1, 2, 3] ⟨4, some "A", some 1, 1⟩ 1
        [⟨1, "SF1", "Ann", none, none, none, none, some "Onboard", some "u1", some "h1",
          some "AAAAAAAAAAAAAAAA.zw==.QUJD", some 1, some "A", 4⟩] =
      some
        ⟨⟨1, "SF1", "Ann", none, none, none, none, some "Onboard", some "u1", some "h1",
          some "AAAAAAAAAAAAAAAA.zw==.QUJD", some 1, some "A", 4⟩, none⟩ := by
  have h := (plaintext_exposure_amended demoAEAD [1, 2, 3] 4
    ⟨1, "SF1", "Ann", none, none, none, none, some "Onboard", some "u1", some "h1",
      some "AAAAAAAAAAAAAAAA.zw==.QUJD", some 1, some "A", 4⟩
    ⟨4, some "A", some 1, 1⟩ 1
    [⟨1, "SF1", "Ann", none, none, none, none, some "Onboard", some "u1", some "h1",
      some "AAAAAAAAAAAAAAAA.zw==.QUJD", some 1, some "A", 4⟩]).1 (by decide)
  unfold getUserByIdOut getUserByIdFetch
  simp only [List.find?]
  rw [show ((⟨1, "SF1", "Ann", none, none, none, none, some "Onboard", some "u1", some "h1",
      some "AAAAAAAAAAAAAAAA.zw==.QUJD", some 1, some "A", 4⟩ : UserRow).user_id == 1) = true
    from rfl]
  simpa using h

end FMC
